import Mathlib

/-!
Verification of the stdio session multiplexer of the dify-plugin-daemon
(Go package stdio_holder).  The source is shallowly embedded: Go strings
and byte slices become lists of characters, timestamps become natural
numbers counted in seconds, goroutine loops become recursion over the
sequence of inputs the loop observes, and operations that can panic at
runtime return an Option, with none marking the panic.
-/

/-- Go byte slices and strings are modelled as lists of characters;
Go len corresponds to List.length. -/
abbrev Bytes := List Char

/-- The cap of the stderr ring, constant MAX_ERR_MSG_LEN inside
stdioHolder.WriteError. -/
def MAX_ERR_MSG_LEN : Int := 1024

/-- Embedding of stdioHolder.WriteError acting on the err_message field
(the last_err_message_updated_at update is added in Holder.WriteError
below).  The Go code computes reduce = len(msg) + len(err_message) - 1024
as an int and, when reduce > 0, takes the slice err_message[reduce:],
which panics at runtime when reduce > len(err_message); the panic is
modelled as none. -/
def writeErrorRing (err_message msg : Bytes) : Option Bytes :=
  if 0 < (msg.length : Int) + (err_message.length : Int) - MAX_ERR_MSG_LEN then
    if (msg.length : Int) + (err_message.length : Int) - MAX_ERR_MSG_LEN
        ≤ (err_message.length : Int) then
      some (err_message.drop
        ((msg.length : Int) + (err_message.length : Int) - MAX_ERR_MSG_LEN).toNat ++ msg)
    else
      none
  else
    some (err_message ++ msg)

/-- The message StartStderr hands to writeErrorRing for a read that filled
buf[:n]: fmt.Sprintf of the read bytes followed by a newline. -/
def stderrChunk (buf : Bytes) : Bytes := buf ++ ['\n']

/-- Outcome classification of one err_reader.Read call: no error,
io.EOF, or any other error. -/
inductive ReadErr
| noErr
| eof
| other
deriving DecidableEq

/-- One err_reader.Read call: data is buf[:n] (so n = data.length, with
n at most the 1024-byte buffer size), err its error value. -/
structure ReadResult where
  data : Bytes
  err : ReadErr
deriving DecidableEq

/-- Embedding of the stdioHolder.StartStderr loop over the sequence of
reads the loop observes, returning the final ring contents (none when a
writeErrorRing call panics).  Per the source: a non-EOF error breaks without
appending; io.EOF appends buf[:n] plus a newline (even when n = 0) and
breaks; a successful read appends exactly when n > 0 and always
continues (the n > 0 test is rendered as a match on whether the read
bytes are empty).  An exhausted read list models a still-blocked reader:
the ring holds its current contents. -/
def StartStderr (ring : Bytes) : List ReadResult → Option Bytes
  | [] => some ring
  | r :: rest =>
    match r.err with
    | ReadErr.other => some ring
    | ReadErr.eof => writeErrorRing ring (stderrChunk r.data)
    | ReadErr.noErr =>
      match r.data with
      | [] => StartStderr ring rest
      | c :: cs =>
        match writeErrorRing ring (stderrChunk (c :: cs)) with
        | some ring2 => StartStderr ring2 rest
        | none => none

/-- Observable actions of the stdout demultiplexer.  Callbacks are
identified by opaque listener ids; an invocation records which callback
ran and with which arguments. -/
inductive Effect
| logInfo (plugin_identity message : String)
| logBadPayload
| logErrorEvent (plugin_identity data : String)
| invokeBroadcast (listenerId holder_id data : String)
| invokeSession (listenerId data : String)
deriving DecidableEq

/-- Tests whether an effect is a broadcast-listener invocation. -/
def isBroadcastEff : Effect → Bool
  | Effect.invokeBroadcast _ _ _ => true
  | _ => false

/-- Tests whether an effect is a per-session-listener invocation. -/
def isSessionEff : Effect → Bool
  | Effect.invokeSession _ _ => true
  | _ => false

/-- Embedding of the SESSION arm of stdioHolder.StartStdout (source
lines 97-106): first every process-wide broadcast listener is invoked
with (holder id, data), iterating the listeners map in the order
broadcastIter; then the per-holder listener map is iterated in the
order sessionIter and each entry whose key equals the envelope's
session id is invoked with data.  Both registries are Go maps, whose
iteration order is unspecified, so the iteration orders are explicit
parameters constrained (in the theorems) only to enumerate the
registered entries. -/
def dispatchSession (holder_id : String)
    (broadcastIter sessionIter : List (String × String))
    (session_id data : String) : List Effect :=
  broadcastIter.map (fun p => Effect.invokeBroadcast p.2 holder_id data) ++
    (sessionIter.filter (fun p => p.1 == session_id)).map
      (fun p => Effect.invokeSession p.2 data)

/-- State of one stdioHolder (source lines 22-40).  chan_closed is the
state of the health channel itself, health_chan_closed the guarding
flag; close_attempts is a ghost counter of executed close operations on
the channel.  The reader/writer booleans record stream closure. -/
structure Holder where
  id : String
  err_message : Bytes
  last_err_message_updated_at : Nat
  health_chan_closed : Bool
  chan_closed : Bool
  close_attempts : Nat
  last_active_at : Nat
  writer_closed : Bool
  reader_closed : Bool
  err_reader_closed : Bool
deriving DecidableEq

/-- Embedding of stdioHolder.Error (source lines 42-50): return the
ring contents as a non-nil error when the last update is fresher than
60 seconds and the ring is non-empty, else no error.  The method reads
the holder and returns no state: it cannot mutate the ring. -/
def Holder.Error (s : Holder) (now : Nat) : Option Bytes :=
  if now - s.last_err_message_updated_at < 60 then
    if s.err_message ≠ [] then some s.err_message else none
  else none

/-- Embedding of stdioHolder.WriteError (source lines 115-124) on the
full holder state: update the ring via writeErrorRing and stamp
last_err_message_updated_at with the current time. -/
def Holder.WriteError (s : Holder) (msg : Bytes) (now : Nat) : Option Holder :=
  (writeErrorRing s.err_message msg).map fun m =>
    { s with err_message := m, last_err_message_updated_at := now }

/-- Embedding of stdioHolder.Stop (source lines 52-65): close the three
streams, then, under the lock, close the health channel only when the
guard flag is unset; finally delete this holder's id from the
process-wide index (a list of ids here).  Closing a Go channel twice
panics, modelled as none; the guard makes that branch unreachable when
the flag mirrors the channel state. -/
def Holder.Stop (s : Holder) (index : List String) :
    Option (Holder × List String) :=
  if s.health_chan_closed then
    some ({ s with
              writer_closed := true, reader_closed := true,
              err_reader_closed := true },
      index.filter (fun i => i != s.id))
  else if s.chan_closed then
    none
  else
    some ({ s with
              writer_closed := true, reader_closed := true,
              err_reader_closed := true, chan_closed := true,
              health_chan_closed := true,
              close_attempts := s.close_attempts + 1 },
      index.filter (fun i => i != s.id))

/-- k successive calls of Stop, threading the holder state and the
process-wide index (none as soon as any call panics). -/
def Holder.StopIter : Nat → Holder → List String → Option (Holder × List String)
  | 0, s, index => some (s, index)
  | k + 1, s, index =>
    (Holder.Stop s index).bind fun p => Holder.StopIter k p.1 p.2

/-- Event tag of a decoded envelope; unknown stands for every tag
outside the closed set, which the switch ignores. -/
inductive EventTag
| log
| session
| error
| heartbeat
| unknown
deriving DecidableEq

/-- A decoded stdout envelope (plugin_entities.PluginUniversalEvent):
session_id and the raw data blob, plus log_decode, the outcome of the
external parser.UnmarshalJsonBytes on data as a PluginLogEvent (some
message on success), which the demultiplexer consults only in the LOG
arm. -/
structure PluginUniversalEvent where
  session_id : String
  event : EventTag
  data : String
  log_decode : Option String
deriving DecidableEq

/-- One scanner line after trimming, represented by its decode outcome:
empty for length 0, badJson for a non-empty line the external JSON
parser rejects, env for a decoded envelope. -/
inductive StdoutLine
| empty
| badJson
| env (e : PluginUniversalEvent)
deriving DecidableEq

/-- Tests whether a line is a decoded HEARTBEAT envelope. -/
def isHeartbeat : StdoutLine → Bool
  | StdoutLine.env e => e.event == EventTag.heartbeat
  | StdoutLine.empty => false
  | StdoutLine.badJson => false

/-- Embedding of one iteration of the stdioHolder.StartStdout scanner
loop (source lines 72-112): empty lines and lines failing JSON decode
are skipped; LOG decodes the inner payload, logging a decode failure
and otherwise the message; SESSION dispatches via dispatchSession with
this holder's id; ERROR logs the raw data; HEARTBEAT sets
last_active_at to the current time; unknown tags fall through the
switch silently.  now is the time.Now() of this iteration. -/
def processLine (plugin_identity : String)
    (broadcastIter sessionIter : List (String × String))
    (s : Holder) (line : StdoutLine) (now : Nat) : Holder × List Effect :=
  match line with
  | StdoutLine.empty => (s, [])
  | StdoutLine.badJson => (s, [])
  | StdoutLine.env e =>
    match e.event with
    | EventTag.log =>
      match e.log_decode with
      | Option.none => (s, [Effect.logBadPayload])
      | Option.some msg => (s, [Effect.logInfo plugin_identity msg])
    | EventTag.session =>
      (s, dispatchSession s.id broadcastIter sessionIter e.session_id e.data)
    | EventTag.error => (s, [Effect.logErrorEvent plugin_identity e.data])
    | EventTag.heartbeat => ({ s with last_active_at := now }, [])
    | EventTag.unknown => (s, [])

/-- The stdioHolder.StartStdout scanner loop over a finite trace of
lines, each paired with the time at which it is processed; returns the
final holder state and the concatenated effects. -/
def StartStdout (plugin_identity : String)
    (broadcastIter sessionIter : List (String × String)) :
    Holder → List (StdoutLine × Nat) → Holder × List Effect
  | s, [] => (s, [])
  | s, (line, now) :: rest =>
    ((StartStdout plugin_identity broadcastIter sessionIter
        (processLine plugin_identity broadcastIter sessionIter s line now).1 rest).1,
      (processLine plugin_identity broadcastIter sessionIter s line now).2 ++
        (StartStdout plugin_identity broadcastIter sessionIter
          (processLine plugin_identity broadcastIter sessionIter s line now).1 rest).2)

/-- Result of stdioHolder.Wait: the health-not-armed error, the
plugin-not-active error, or the Error() snapshot returned when the
termination channel fires. -/
inductive WaitRes
| notArmed
| notActive
| ringErr (e : Option Bytes)
deriving DecidableEq

/-- The error message each Wait outcome carries (errors.New text in the
source); none for a nil error. -/
def waitMessage : WaitRes → Option String
  | WaitRes.notArmed => some "you need to start the health check before waiting"
  | WaitRes.notActive => some "plugin is not active"
  | WaitRes.ringErr (some e) => some (String.mk e)
  | WaitRes.ringErr Option.none => none

/-- Embedding of the stdioHolder.Wait polling loop (source lines
151-175), entered with the next ticker fire at time tick; the ticker
fires every 5 seconds.  term is the time at which the termination
channel closes, none when it never does.  The select resolves to the
termination branch when the channel closed strictly before the pending
tick, returning s.Error() evaluated at that moment; otherwise the tick
fires and the loop returns "plugin is not active" when more than 20
seconds passed since last_active_at, else polls again.  The returned
Nat is the time of return. -/
def waitFrom (s : Holder) (term : Option Nat) (tick : Nat) : WaitRes × Nat :=
  match term with
  | some t =>
    if t < tick then (WaitRes.ringErr (Holder.Error s t), t)
    else if 20 < tick - s.last_active_at then (WaitRes.notActive, tick)
    else waitFrom s (some t) (tick + 5)
  | Option.none =>
    if 20 < tick - s.last_active_at then (WaitRes.notActive, tick)
    else waitFrom s Option.none (tick + 5)
termination_by s.last_active_at + 21 - tick
decreasing_by
  all_goals omega

/-- Embedding of stdioHolder.Wait (source lines 143-175), called at
time w: when the termination signal is already closed at call time it
returns the health-not-armed error immediately at w, without starting
the ticker; otherwise it enters the polling loop, whose first tick
fires at w + 5. -/
def Wait (s : Holder) (w : Nat) (term : Option Nat) : WaitRes × Nat :=
  if s.health_chan_closed then (WaitRes.notArmed, w)
  else waitFrom s term (w + 5)

/-- A freshly constructed holder as the spawn path creates it: empty
ring, no flags set, clocks at zero. -/
def sampleHolder : Holder :=
  { id := "holder0", err_message := [], last_err_message_updated_at := 0,
    health_chan_closed := false, chan_closed := false, close_attempts := 0,
    last_active_at := 0, writer_closed := false, reader_closed := false,
    err_reader_closed := false }

/-- writeErrorRing completes (no panic) exactly on messages of at most 1024
code units, for every ring state. -/
theorem WriteError_isSome_iff (err_message msg : Bytes) :
    (writeErrorRing err_message msg).isSome ↔ msg.length ≤ 1024 := by
  unfold writeErrorRing MAX_ERR_MSG_LEN
  split
  · split
    · simpa using by omega
    · simpa using by omega
  · simpa using by omega

/-- A message longer than 1024 code units makes writeErrorRing panic from
every ring state. -/
theorem WriteError_none_of_big (err_message msg : Bytes)
    (h : 1024 < msg.length) : writeErrorRing err_message msg = none := by
  unfold writeErrorRing MAX_ERR_MSG_LEN
  split
  · split
    · omega
    · rfl
  · omega

/-- On a successful append, the resulting ring is the dropped prefix (or
the whole ring) followed by the message. -/
theorem WriteError_some_iff (err_message msg res : Bytes) :
    writeErrorRing err_message msg = some res ↔
      msg.length ≤ 1024 ∧
        res = err_message.drop (msg.length + err_message.length - 1024) ++ msg := by
  unfold writeErrorRing MAX_ERR_MSG_LEN
  split
  · split
    · have ht : ((msg.length : Int) + (err_message.length : Int) - 1024).toNat
          = msg.length + err_message.length - 1024 := by omega
      rw [ht]
      constructor
      · intro h
        exact ⟨by omega, (Option.some_inj.mp h).symm⟩
      · intro h
        rw [h.2]
    · constructor
      · intro h
        exact absurd h (by simp)
      · intro h
        exact absurd h.1 (by omega)
  · have hdrop : msg.length + err_message.length - 1024 = 0 := by omega
    rw [hdrop, List.drop_zero]
    constructor
    · intro h
      exact ⟨by omega, (Option.some_inj.mp h).symm⟩
    · intro h
      rw [h.2]

/-- Length of the chunk built from a full 1024-byte read. -/
theorem stderrChunk_full_length :
    (stderrChunk (List.replicate 1024 'a')).length = 1025 := by
  rw [stderrChunk, List.length_append, List.length_replicate]
  rfl

/-- Reduction of the StartStderr loop body on a non-empty successful
read. -/
theorem StartStderr_noErr_cons (ring : Bytes) (c : Char) (d : Bytes)
    (rest : List ReadResult) :
    StartStderr ring (ReadResult.mk (c :: d) ReadErr.noErr :: rest) =
      match writeErrorRing ring (stderrChunk (c :: d)) with
      | some ring2 => StartStderr ring2 rest
      | none => none := rfl

/-- C10: for every ring state, the slice lower bound computed by
writeErrorRing keeps the slice err_message[reduce:] in range — so the call
cannot panic — if and only if the appended message has at most 1024 code
units; and the message StartStderr builds from a full 1024-byte read
plus its trailing newline has 1025 code units, for which the bound is
exceeded and writeErrorRing panics from every ring state. -/
theorem writeError_slice_in_range_iff :
    (∀ err_message msg : Bytes,
        (writeErrorRing err_message msg).isSome ↔ msg.length ≤ 1024) ∧
    (stderrChunk (List.replicate 1024 'a')).length = 1025 ∧
    (∀ err_message : Bytes,
        writeErrorRing err_message (stderrChunk (List.replicate 1024 'a')) = none) := by
  refine ⟨WriteError_isSome_iff, stderrChunk_full_length, ?_⟩
  intro e
  exact WriteError_none_of_big e _ (by rw [stderrChunk_full_length]; omega)

/-- C1: the rolling-window contract is broken by the code on a reachable
input.  A full 1024-byte stderr read makes StartStderr append a
1025-code-unit message; writeErrorRing then computes reduce = 1 from the
empty ring and evaluates a slice whose lower bound exceeds the ring
length, a runtime panic (modelled as none), instead of dropping the
single oldest unit and concatenating. -/
theorem writeError_full_read_panics :
    writeErrorRing [] (stderrChunk (List.replicate 1024 'a')) = none ∧
    StartStderr [] [ReadResult.mk (List.replicate 1024 'a') ReadErr.noErr] = none := by
  have h1 : writeErrorRing [] (stderrChunk (List.replicate 1024 'a')) = none :=
    WriteError_none_of_big _ _ (by rw [stderrChunk_full_length]; omega)
  refine ⟨h1, ?_⟩
  have hrepl : List.replicate 1024 'a' = 'a' :: List.replicate 1023 'a' := by
    rw [(by norm_num : (1024 : Nat) = 1023 + 1), List.replicate_succ]
  rw [hrepl, StartStderr_noErr_cons, ← hrepl, h1]

/-- C2 counterexample: a read returning end-of-stream with n == 0 does
not exit cleanly without appending; the collector appends a lone newline
to the error ring before exiting. -/
theorem startStderr_eof_appends_newline :
    StartStderr [] [ReadResult.mk [] ReadErr.eof] ≠ some [] ∧
    StartStderr [] [ReadResult.mk [] ReadErr.eof] = some ['\n'] := by
  constructor
  · decide
  · decide

/-- C2 (amended): the collector loop exits without appending on any
non-EOF read error, regardless of n; on end-of-stream it appends the n
read bytes as text with a trailing newline — including n == 0, where it
appends just the newline — and exits; every non-empty successful read
appends the read bytes with a trailing newline and continues; an empty
successful read continues without appending. -/
theorem startStderr_exit_conditions (ring d : Bytes) (c : Char)
    (rest : List ReadResult) :
    (StartStderr ring (ReadResult.mk d ReadErr.other :: rest) = some ring) ∧
    (StartStderr ring (ReadResult.mk d ReadErr.eof :: rest)
        = writeErrorRing ring (stderrChunk d)) ∧
    (StartStderr ring (ReadResult.mk (c :: d) ReadErr.noErr :: rest)
        = (writeErrorRing ring (stderrChunk (c :: d))).bind
            (fun ring2 => StartStderr ring2 rest)) ∧
    (StartStderr ring (ReadResult.mk [] ReadErr.noErr :: rest)
        = StartStderr ring rest) ∧
    StartStderr [] [ReadResult.mk [] ReadErr.eof] = some ['\n'] := by
  refine ⟨rfl, rfl, ?_, rfl, by decide⟩
  rw [StartStderr_noErr_cons]
  cases writeErrorRing ring (stderrChunk (c :: d)) <;> rfl

/-- Filtering the broadcast invocations out of a mapped broadcast block
keeps everything. -/
theorem filterB_mapB (l : List (String × String)) (hid d : String) :
    (l.map (fun p => Effect.invokeBroadcast p.2 hid d)).filter isBroadcastEff
      = l.map (fun p => Effect.invokeBroadcast p.2 hid d) := by
  induction l with
  | nil => rfl
  | cons a t ih => simp [isBroadcastEff, ih]

/-- Filtering the session invocations out of a mapped broadcast block
leaves nothing. -/
theorem filterS_mapB (l : List (String × String)) (hid d : String) :
    (l.map (fun p => Effect.invokeBroadcast p.2 hid d)).filter isSessionEff
      = [] := by
  induction l with
  | nil => rfl
  | cons a t ih => simp [isSessionEff, ih]

/-- Filtering the broadcast invocations out of a mapped session block
leaves nothing. -/
theorem filterB_mapS (l : List (String × String)) (d : String) :
    (l.map (fun p => Effect.invokeSession p.2 d)).filter isBroadcastEff
      = [] := by
  induction l with
  | nil => rfl
  | cons a t ih => simp [isBroadcastEff, ih]

/-- Filtering the session invocations out of a mapped session block
keeps everything. -/
theorem filterS_mapS (l : List (String × String)) (d : String) :
    (l.map (fun p => Effect.invokeSession p.2 d)).filter isSessionEff
      = l.map (fun p => Effect.invokeSession p.2 d) := by
  induction l with
  | nil => rfl
  | cons a t ih => simp [isSessionEff, ih]

/-- A key absent from an association list matches no entry. -/
theorem filter_key_not_mem (sid : String) (l : List (String × String))
    (h : sid ∉ l.map Prod.fst) : l.filter (fun p => p.1 == sid) = [] := by
  induction l with
  | nil => rfl
  | cons a t ih =>
    rw [List.map_cons, List.mem_cons] at h
    push_neg at h
    rw [List.filter_cons]
    have hbeq : (a.1 == sid) = false := by
      simp only [beq_eq_false_iff_ne]
      exact fun hc => h.1 hc.symm
    simp only [hbeq, Bool.false_eq_true, if_false]
    exact ih h.2

/-- With pairwise-distinct keys, filtering an association list by a key
yields either nothing (key unregistered) or exactly the one registered
entry. -/
theorem filter_key_nodup (sid : String) (l : List (String × String))
    (h : (l.map Prod.fst).Nodup) :
    (l.filter (fun p => p.1 == sid) = [] ∧ ∀ v, (sid, v) ∉ l) ∨
      ∃ v, (sid, v) ∈ l ∧ l.filter (fun p => p.1 == sid) = [(sid, v)] := by
  induction l with
  | nil => exact Or.inl ⟨rfl, by simp⟩
  | cons a t ih =>
    rw [List.map_cons, List.nodup_cons] at h
    rw [List.filter_cons]
    by_cases hc : a.1 = sid
    · right
      have hbeq : (a.1 == sid) = true := by simp [hc]
      refine ⟨a.2, ?_, ?_⟩
      · rw [← hc]
        exact List.mem_cons_self a t
      · simp only [hbeq, if_true]
        rw [filter_key_not_mem sid t (by rw [← hc]; exact h.1)]
        rw [← hc]
    · have hbeq : (a.1 == sid) = false := by
        simp only [beq_eq_false_iff_ne]
        exact hc
      simp only [hbeq, Bool.false_eq_true, if_false]
      rcases ih h.2 with ⟨hnil, hnm⟩ | ⟨v, hv, hf⟩
      · left
        refine ⟨hnil, ?_⟩
        intro v hm
        rcases List.mem_cons.mp hm with he | ht
        · exact hc (congrArg Prod.fst he).symm
        · exact hnm v ht
      · right
        exact ⟨v, List.mem_cons_of_mem a hv, hf⟩

/-- C3 counterexample: Go map iteration order is unspecified, so with
two broadcast listeners registered as f then g, the iteration order
that visits g first is a permutation of the registry and yields the
invocations in the opposite of registration order, refuting the claim
that broadcast listeners are invoked in registration order. -/
theorem dispatch_not_registration_order :
    List.Perm [("2", "g"), ("1", "f")] [("1", "f"), ("2", "g")] ∧
    dispatchSession "h" [("2", "g"), ("1", "f")] [] "s" "d"
      ≠ dispatchSession "h" [("1", "f"), ("2", "g")] [] "s" "d" :=
  ⟨List.Perm.swap ("1", "f") ("2", "g") [], by decide⟩

/-- C3 (amended): for every decoded SESSION event, dispatched with any
iteration order of the broadcast registry (a permutation of the
registered entries) and any iteration order of the per-session map
with pairwise-distinct keys: every registered broadcast listener is
invoked exactly once with (holder_id, data) — in the iteration order,
which need not be the registration order; all broadcast invocations
precede every per-session invocation; and exactly the per-session
listener whose key equals the envelope's session_id (if one is
registered) is invoked with data, no other. -/
theorem dispatchSession_spec (holder_id session_id data : String)
    (reg broadcastIter sessionIter : List (String × String))
    (hperm : broadcastIter.Perm reg)
    (hnodup : (sessionIter.map Prod.fst).Nodup) :
    ((dispatchSession holder_id broadcastIter sessionIter session_id data).filter
        isBroadcastEff).Perm
        (reg.map (fun p => Effect.invokeBroadcast p.2 holder_id data)) ∧
    ((dispatchSession holder_id broadcastIter sessionIter session_id data).filter
        isBroadcastEff
      = broadcastIter.map (fun p => Effect.invokeBroadcast p.2 holder_id data)) ∧
    (dispatchSession holder_id broadcastIter sessionIter session_id data
      = (dispatchSession holder_id broadcastIter sessionIter session_id data).filter
          isBroadcastEff
        ++ (dispatchSession holder_id broadcastIter sessionIter session_id data).filter
          isSessionEff) ∧
    (((dispatchSession holder_id broadcastIter sessionIter session_id data).filter
          isSessionEff = []
        ∧ ∀ v, (session_id, v) ∉ sessionIter)
      ∨ ∃ v, (session_id, v) ∈ sessionIter ∧
          (dispatchSession holder_id broadcastIter sessionIter session_id data).filter
            isSessionEff = [Effect.invokeSession v data]) := by
  have hfB : (dispatchSession holder_id broadcastIter sessionIter session_id data).filter
      isBroadcastEff
      = broadcastIter.map (fun p => Effect.invokeBroadcast p.2 holder_id data) := by
    unfold dispatchSession
    rw [List.filter_append, filterB_mapB, filterB_mapS, List.append_nil]
  have hfS : (dispatchSession holder_id broadcastIter sessionIter session_id data).filter
      isSessionEff
      = (sessionIter.filter (fun p => p.1 == session_id)).map
          (fun p => Effect.invokeSession p.2 data) := by
    unfold dispatchSession
    rw [List.filter_append, filterS_mapB, filterS_mapS, List.nil_append]
  refine ⟨?_, hfB, ?_, ?_⟩
  · rw [hfB]
    exact hperm.map (fun p => Effect.invokeBroadcast p.2 holder_id data)
  · rw [hfB, hfS]
    rfl
  · rcases filter_key_nodup session_id sessionIter hnodup with ⟨hnil, hnm⟩ | ⟨v, hv, hf⟩
    · left
      refine ⟨?_, hnm⟩
      rw [hfS, hnil]
      rfl
    · right
      refine ⟨v, hv, ?_⟩
      rw [hfS, hf]
      rfl

/-- Witness for the amended C3 theorem at a concrete registry. -/
theorem dispatchSession_spec_witness :
    ((dispatchSession "h" [("1", "f")] [("s", "p")] "s" "d").filter
        isBroadcastEff).Perm
        ([("1", "f")].map (fun p => Effect.invokeBroadcast p.2 "h" "d")) ∧
    ((dispatchSession "h" [("1", "f")] [("s", "p")] "s" "d").filter
        isBroadcastEff
      = [("1", "f")].map (fun p => Effect.invokeBroadcast p.2 "h" "d")) ∧
    (dispatchSession "h" [("1", "f")] [("s", "p")] "s" "d"
      = (dispatchSession "h" [("1", "f")] [("s", "p")] "s" "d").filter
          isBroadcastEff
        ++ (dispatchSession "h" [("1", "f")] [("s", "p")] "s" "d").filter
          isSessionEff) ∧
    (((dispatchSession "h" [("1", "f")] [("s", "p")] "s" "d").filter
          isSessionEff = []
        ∧ ∀ v, ("s", v) ∉ [("s", "p")])
      ∨ ∃ v, ("s", v) ∈ [("s", "p")] ∧
          (dispatchSession "h" [("1", "f")] [("s", "p")] "s" "d").filter
            isSessionEff = [Effect.invokeSession v "d"]) :=
  dispatchSession_spec "h" "s" "d" [("1", "f")] [("1", "f")] [("s", "p")]
    (List.Perm.refl _) (by decide)

/-- The demultiplexer step changes last_active_at to now exactly on a
heartbeat line and leaves it untouched otherwise. -/
theorem processLine_last_active (plugin_identity : String)
    (broadcastIter sessionIter : List (String × String))
    (s : Holder) (line : StdoutLine) (now : Nat) :
    (processLine plugin_identity broadcastIter sessionIter s line now).1.last_active_at
      = if isHeartbeat line then now else s.last_active_at := by
  cases line with
  | empty => rfl
  | badJson => rfl
  | env e =>
    cases he : e.event with
    | log => cases hd : e.log_decode <;> simp [processLine, isHeartbeat, he, hd]
    | session => simp [processLine, isHeartbeat, he]
    | error => simp [processLine, isHeartbeat, he]
    | heartbeat => simp [processLine, isHeartbeat, he]
    | unknown => simp [processLine, isHeartbeat, he]

/-- The demultiplexer step touches no holder field other than
last_active_at. -/
theorem processLine_state (plugin_identity : String)
    (broadcastIter sessionIter : List (String × String))
    (s : Holder) (line : StdoutLine) (now : Nat) :
    (processLine plugin_identity broadcastIter sessionIter s line now).1
      = { s with last_active_at :=
          (processLine plugin_identity broadcastIter sessionIter s line now).1.last_active_at } := by
  cases line with
  | empty => rfl
  | badJson => rfl
  | env e =>
    cases he : e.event with
    | log => cases hd : e.log_decode <;> simp [processLine, he, hd]
    | session => simp [processLine, he]
    | error => simp [processLine, he]
    | heartbeat => simp [processLine, he]
    | unknown => simp [processLine, he]

/-- Along a trace whose processing times are sorted and no earlier than
the holder's current last_active_at, the demultiplexer never decreases
last_active_at. -/
theorem StartStdout_mono (plugin_identity : String)
    (broadcastIter sessionIter : List (String × String)) :
    ∀ (lines : List (StdoutLine × Nat)) (s : Holder),
      List.Pairwise (fun a b => a.2 ≤ b.2) lines →
      (∀ q ∈ lines, s.last_active_at ≤ q.2) →
      s.last_active_at
        ≤ (StartStdout plugin_identity broadcastIter sessionIter s lines).1.last_active_at := by
  intro lines
  induction lines with
  | nil =>
    intro s _ _
    exact le_refl _
  | cons a rest ih =>
    obtain ⟨line, t⟩ := a
    intro s hp hq
    rw [List.pairwise_cons] at hp
    have h1 := processLine_last_active plugin_identity broadcastIter sessionIter s line t
    have hstep : (StartStdout plugin_identity broadcastIter sessionIter s
          ((line, t) :: rest)).1
        = (StartStdout plugin_identity broadcastIter sessionIter
            (processLine plugin_identity broadcastIter sessionIter s line t).1 rest).1 := rfl
    rw [hstep]
    have hle : s.last_active_at
        ≤ (processLine plugin_identity broadcastIter sessionIter s line t).1.last_active_at := by
      rw [h1]
      split
      · exact hq (line, t) (List.mem_cons_self _ _)
      · exact le_refl _
    refine le_trans hle
      (ih (processLine plugin_identity broadcastIter sessionIter s line t).1 hp.2 ?_)
    intro q hqm
    rw [h1]
    split
    · exact hp.1 q hqm
    · exact hq q (List.mem_cons_of_mem _ hqm)

/-- C4: only HEARTBEAT events modify last_active_at, setting it to the
current time with no other state change and no effect; every other
line leaves it unchanged; the step changes no holder field other than
last_active_at; the step never decreases last_active_at when time has
not run backwards; WriteError and Stop never touch last_active_at (it
only advances from within the demultiplexer); and along any trace with
non-decreasing times at or after the current value, last_active_at is
non-decreasing. -/
theorem heartbeat_only_updates (plugin_identity : String)
    (broadcastIter sessionIter : List (String × String))
    (s : Holder) (line : StdoutLine) (now : Nat) :
    ((processLine plugin_identity broadcastIter sessionIter s line now).1.last_active_at
      = if isHeartbeat line then now else s.last_active_at) ∧
    (isHeartbeat line = true →
      processLine plugin_identity broadcastIter sessionIter s line now
        = ({ s with last_active_at := now }, [])) ∧
    ((processLine plugin_identity broadcastIter sessionIter s line now).1
      = { s with last_active_at :=
          (processLine plugin_identity broadcastIter sessionIter s line now).1.last_active_at }) ∧
    (s.last_active_at ≤ now →
      s.last_active_at
        ≤ (processLine plugin_identity broadcastIter sessionIter s line now).1.last_active_at) ∧
    (∀ msg mnow s2, Holder.WriteError s msg mnow = some s2 →
      s2.last_active_at = s.last_active_at) ∧
    (∀ index p, Holder.Stop s index = some p →
      p.1.last_active_at = s.last_active_at) ∧
    (∀ lines : List (StdoutLine × Nat),
      List.Pairwise (fun a b => a.2 ≤ b.2) lines →
      (∀ q ∈ lines, s.last_active_at ≤ q.2) →
      s.last_active_at
        ≤ (StartStdout plugin_identity broadcastIter sessionIter s lines).1.last_active_at) := by
  refine ⟨processLine_last_active plugin_identity broadcastIter sessionIter s line now,
    ?_, processLine_state plugin_identity broadcastIter sessionIter s line now, ?_, ?_, ?_,
    fun lines hp hq => StartStdout_mono plugin_identity broadcastIter sessionIter lines s hp hq⟩
  · intro hh
    cases line with
    | empty => exact absurd hh (by simp [isHeartbeat])
    | badJson => exact absurd hh (by simp [isHeartbeat])
    | env e =>
      have he : e.event = EventTag.heartbeat := by
        simp only [isHeartbeat, beq_iff_eq] at hh
        exact hh
      simp [processLine, he]
  · intro hnow
    rw [processLine_last_active plugin_identity broadcastIter sessionIter s line now]
    split
    · exact hnow
    · exact le_refl _
  · intro msg mnow s2 h
    unfold Holder.WriteError at h
    cases hw : writeErrorRing s.err_message msg with
    | none =>
      rw [hw] at h
      exact absurd h (by simp)
    | some m =>
      rw [hw] at h
      have h2 : ({ s with err_message := m, last_err_message_updated_at := mnow } : Holder)
          = s2 := Option.some_inj.mp h
      rw [← h2]
  · intro index p h
    unfold Holder.Stop at h
    split at h
    · have h2 := Option.some_inj.mp h
      rw [← h2]
    · split at h
      · exact absurd h (by simp)
      · have h2 := Option.some_inj.mp h
        rw [← h2]

/-- Witness for the C4 theorem: a heartbeat at time 7 sets
last_active_at to 7 with no effects, and a bad line never lowers it. -/
theorem heartbeat_only_updates_witness :
    (processLine "p" [] [] sampleHolder
        (StdoutLine.env (PluginUniversalEvent.mk "s" EventTag.heartbeat "d" Option.none)) 7
      = ({ sampleHolder with last_active_at := 7 }, [])) ∧
    sampleHolder.last_active_at
      ≤ (processLine "p" [] [] sampleHolder StdoutLine.badJson 7).1.last_active_at :=
  ⟨(heartbeat_only_updates "p" [] [] sampleHolder
      (StdoutLine.env (PluginUniversalEvent.mk "s" EventTag.heartbeat "d" Option.none)) 7).2.1
      (by decide),
    (heartbeat_only_updates "p" [] [] sampleHolder StdoutLine.badJson 7).2.2.2.1 (by decide)⟩

/-- C9: empty lines are skipped silently; non-empty lines failing JSON
decode are discarded with no state change, no effect and no error;
envelopes with an unknown tag are silently ignored; a LOG envelope
whose inner payload fails to decode is logged and discarded; and in
each of these cases the scanner loop continues with the next line. -/
theorem bad_lines_skipped (plugin_identity : String)
    (broadcastIter sessionIter : List (String × String))
    (s : Holder) (now : Nat) (e : PluginUniversalEvent)
    (rest : List (StdoutLine × Nat)) :
    (processLine plugin_identity broadcastIter sessionIter s StdoutLine.empty now
      = (s, [])) ∧
    (processLine plugin_identity broadcastIter sessionIter s StdoutLine.badJson now
      = (s, [])) ∧
    (e.event = EventTag.unknown →
      processLine plugin_identity broadcastIter sessionIter s (StdoutLine.env e) now
        = (s, [])) ∧
    (e.event = EventTag.log → e.log_decode = none →
      processLine plugin_identity broadcastIter sessionIter s (StdoutLine.env e) now
        = (s, [Effect.logBadPayload])) ∧
    (StartStdout plugin_identity broadcastIter sessionIter s ((StdoutLine.empty, now) :: rest)
      = StartStdout plugin_identity broadcastIter sessionIter s rest) ∧
    (StartStdout plugin_identity broadcastIter sessionIter s ((StdoutLine.badJson, now) :: rest)
      = StartStdout plugin_identity broadcastIter sessionIter s rest) ∧
    (e.event = EventTag.log → e.log_decode = none →
      StartStdout plugin_identity broadcastIter sessionIter s ((StdoutLine.env e, now) :: rest)
        = ((StartStdout plugin_identity broadcastIter sessionIter s rest).1,
            Effect.logBadPayload ::
              (StartStdout plugin_identity broadcastIter sessionIter s rest).2)) := by
  refine ⟨rfl, rfl, ?_, ?_, ?_, ?_, ?_⟩
  · intro he
    simp [processLine, he]
  · intro he hd
    simp [processLine, he, hd]
  · simp [StartStdout, processLine]
  · simp [StartStdout, processLine]
  · intro he hd
    simp [StartStdout, processLine, he, hd]

/-- Witness for the C9 theorem: a LOG envelope whose payload fails to
decode is logged, discarded, and processing continues. -/
theorem bad_lines_skipped_witness :
    (processLine "p" [] [] sampleHolder
        (StdoutLine.env (PluginUniversalEvent.mk "s" EventTag.log "d" Option.none)) 5
      = (sampleHolder, [Effect.logBadPayload])) ∧
    (StartStdout "p" [] [] sampleHolder
        [(StdoutLine.env (PluginUniversalEvent.mk "s" EventTag.log "d" Option.none), 5)]
      = ((StartStdout "p" [] [] sampleHolder []).1,
          Effect.logBadPayload :: (StartStdout "p" [] [] sampleHolder []).2)) :=
  ⟨(bad_lines_skipped "p" [] [] sampleHolder 5
      (PluginUniversalEvent.mk "s" EventTag.log "d" Option.none) []).2.2.2.1 rfl rfl,
    (bad_lines_skipped "p" [] [] sampleHolder 5
      (PluginUniversalEvent.mk "s" EventTag.log "d" Option.none) []).2.2.2.2.2.2 rfl rfl⟩

/-- C7: Error returns the ring contents as a non-nil error exactly when
the snapshot is fresh (now - last_updated_at < 60s) and the ring is
non-empty; it only ever returns the full current ring or nothing; and
after a successful WriteError at time t the snapshot stays non-empty
until t + 60 and is empty from t + 60 on.  Error takes the holder and
returns only a value, never a new state, so it mutates nothing. -/
theorem error_snapshot_spec (s : Holder) (now : Nat) :
    ((Holder.Error s now).isSome
      ↔ (now - s.last_err_message_updated_at < 60 ∧ s.err_message ≠ [])) ∧
    (Holder.Error s now = some s.err_message ∨ Holder.Error s now = none) ∧
    (∀ msg t s2, Holder.WriteError s msg t = some s2 →
      (∀ u, t + 60 ≤ u → Holder.Error s2 u = none) ∧
      (∀ u, u < t + 60 → s2.err_message ≠ [] →
        Holder.Error s2 u = some s2.err_message)) := by
  refine ⟨?_, ?_, ?_⟩
  · unfold Holder.Error
    split
    · split
      · simp [*]
      · simp [*]
    · simp [*]
  · unfold Holder.Error
    split
    · split
      · exact Or.inl rfl
      · exact Or.inr rfl
    · exact Or.inr rfl
  · intro msg t s2 h
    unfold Holder.WriteError at h
    cases hw : writeErrorRing s.err_message msg with
    | none =>
      rw [hw] at h
      exact absurd h (by simp)
    | some m =>
      rw [hw] at h
      have h2 : ({ s with err_message := m, last_err_message_updated_at := t } : Holder)
          = s2 := Option.some_inj.mp h
      have hlast : s2.last_err_message_updated_at = t := by rw [← h2]
      constructor
      · intro u hu
        unfold Holder.Error
        rw [hlast, if_neg (by omega)]
      · intro u hu hne
        unfold Holder.Error
        rw [hlast, if_pos (by omega), if_pos hne]

/-- Witness for the C7 theorem after a concrete write at time 10. -/
theorem error_snapshot_spec_witness :
    ((Holder.Error sampleHolder 0).isSome
      ↔ (0 - sampleHolder.last_err_message_updated_at < 60
          ∧ sampleHolder.err_message ≠ [])) ∧
    Holder.Error
      { sampleHolder with err_message := ['z'], last_err_message_updated_at := 10 } 70
      = none ∧
    Holder.Error
      { sampleHolder with err_message := ['z'], last_err_message_updated_at := 10 } 30
      = some ['z'] := by
  refine ⟨(error_snapshot_spec sampleHolder 0).1, ?_, ?_⟩
  · exact ((error_snapshot_spec sampleHolder 0).2.2 ['z'] 10
      { sampleHolder with err_message := ['z'], last_err_message_updated_at := 10 }
      (by decide)).1 70 (by decide)
  · exact ((error_snapshot_spec sampleHolder 0).2.2 ['z'] 10
      { sampleHolder with err_message := ['z'], last_err_message_updated_at := 10 }
      (by decide)).2 30 (by decide) (by decide)

/-- Deleting an id from the index is idempotent. -/
theorem filter_ne_idem (l : List String) (x : String) :
    (l.filter (fun i => i != x)).filter (fun i => i != x)
      = l.filter (fun i => i != x) := by
  rw [List.filter_eq_self]
  intro a ha
  exact (List.mem_filter.mp ha).2

/-- One Stop call succeeds and yields a fixed point of Stop, raising
the close counter by at most one, whenever the guard flag mirrors the
channel state. -/
theorem Stop_step (s : Holder) (index : List String)
    (hsync : s.chan_closed = s.health_chan_closed) :
    ∃ p, Holder.Stop s index = some p ∧
      Holder.Stop p.1 p.2 = some p ∧
      p.1.close_attempts ≤ s.close_attempts + 1 := by
  cases h1 : s.health_chan_closed with
  | true =>
    refine ⟨({ s with
        writer_closed := true, reader_closed := true, err_reader_closed := true },
        index.filter (fun i => i != s.id)), ?_, ?_, Nat.le_succ _⟩
    · simp [Holder.Stop, h1]
    · simp [Holder.Stop, h1, filter_ne_idem]
  | false =>
    have h2 : s.chan_closed = false := by rw [hsync, h1]
    refine ⟨({ s with
        writer_closed := true, reader_closed := true, err_reader_closed := true,
        chan_closed := true, health_chan_closed := true,
        close_attempts := s.close_attempts + 1 },
        index.filter (fun i => i != s.id)), ?_, ?_, le_refl _⟩
    · simp [Holder.Stop, h1, h2]
    · simp [Holder.Stop, filter_ne_idem]

/-- Iterating Stop any number of times from one of its fixed points
stays there. -/
theorem StopIter_fixed (p : Holder × List String)
    (hp : Holder.Stop p.1 p.2 = some p) :
    ∀ k, Holder.StopIter k p.1 p.2 = some p := by
  intro k
  induction k with
  | zero => rfl
  | succ n ih =>
    simp only [Holder.StopIter]
    rw [hp]
    simpa using ih

/-- C8: Stop is idempotent.  With the close-guard flag mirroring the
channel state, k successive Stop calls (k at least 1) produce the same
holder state and index as a single call, no call panics, and the close
of the termination channel is executed at most once across all calls
(the ghost counter rises by at most one from the first call and the
iterate equals that single call). -/
theorem stop_idempotent (s : Holder) (index : List String) (k : Nat)
    (hsync : s.chan_closed = s.health_chan_closed) (hk : 1 ≤ k) :
    Holder.StopIter k s index = Holder.Stop s index ∧
    (Holder.Stop s index).isSome ∧
    (∀ p, Holder.Stop s index = some p →
      p.1.close_attempts ≤ s.close_attempts + 1) := by
  obtain ⟨p, hp1, hp2, hp3⟩ := Stop_step s index hsync
  refine ⟨?_, by rw [hp1]; rfl, ?_⟩
  · obtain ⟨m, rfl⟩ : ∃ m, k = m + 1 := ⟨k - 1, by omega⟩
    simp only [Holder.StopIter]
    rw [hp1]
    simpa using StopIter_fixed p hp2 m
  · intro q hq
    rw [hp1] at hq
    have hpq : p = q := Option.some_inj.mp hq
    rw [← hpq]
    exact hp3

/-- Witness for the C8 theorem: three Stop calls on a fresh holder. -/
theorem stop_idempotent_witness :
    Holder.StopIter 3 sampleHolder ["holder0", "x"]
      = Holder.Stop sampleHolder ["holder0", "x"] ∧
    (Holder.Stop sampleHolder ["holder0", "x"]).isSome ∧
    (∀ p, Holder.Stop sampleHolder ["holder0", "x"] = some p →
      p.1.close_attempts ≤ sampleHolder.close_attempts + 1) :=
  stop_idempotent sampleHolder ["holder0", "x"] 3 rfl (by decide)

/-- C6: Wait on a holder whose termination signal is already closed at
call time returns immediately, at the call instant and so without any
polling iteration, with the error saying health tracking was never
armed. -/
theorem wait_not_armed (s : Holder) (w : Nat) (term : Option Nat)
    (hc : s.health_chan_closed = true) :
    Wait s w term = (WaitRes.notArmed, w) ∧
    waitMessage (Wait s w term).1
      = some "you need to start the health check before waiting" := by
  have h : Wait s w term = (WaitRes.notArmed, w) := by
    unfold Wait
    rw [if_pos hc]
  refine ⟨h, ?_⟩
  rw [h]
  rfl

/-- Witness for the C6 theorem on a terminated holder. -/
theorem wait_not_armed_witness :
    Wait { sampleHolder with health_chan_closed := true } 3 Option.none
      = (WaitRes.notArmed, 3) ∧
    waitMessage (Wait { sampleHolder with health_chan_closed := true } 3 Option.none).1
      = some "you need to start the health check before waiting" :=
  wait_not_armed { sampleHolder with health_chan_closed := true } 3 Option.none rfl

/-- Without termination, the polling loop returns plugin-not-active at
the first tick past last_active_at + 20, which lies within 25 seconds
of last_active_at whenever polling entered no later than 25 seconds
after it. -/
theorem waitFrom_none_spec (s : Holder) :
    ∀ n tick, s.last_active_at + 21 - tick ≤ n →
      tick ≤ s.last_active_at + 25 →
      (waitFrom s Option.none tick).1 = WaitRes.notActive ∧
      s.last_active_at + 20 < (waitFrom s Option.none tick).2 ∧
      (waitFrom s Option.none tick).2 ≤ s.last_active_at + 25 := by
  intro n
  induction n with
  | zero =>
    intro tick h1 h2
    have htrip : 20 < tick - s.last_active_at := by omega
    have he : waitFrom s Option.none tick = (WaitRes.notActive, tick) := by
      rw [waitFrom.eq_def]
      simp [htrip]
    rw [he]
    exact ⟨rfl, by omega, h2⟩
  | succ n ih =>
    intro tick h1 h2
    by_cases htrip : 20 < tick - s.last_active_at
    · have he : waitFrom s Option.none tick = (WaitRes.notActive, tick) := by
        rw [waitFrom.eq_def]
        simp [htrip]
      rw [he]
      exact ⟨rfl, by omega, h2⟩
    · have he : waitFrom s Option.none tick = waitFrom s Option.none (tick + 5) := by
        rw [waitFrom.eq_def]
        simp [htrip]
      rw [he]
      exact ih (tick + 5) (by omega) (by omega)

/-- When the termination channel closes at a time no later than
last_active_at + 20, the polling loop returns the Error() snapshot
taken at that time. -/
theorem waitFrom_some_spec (s : Holder) (t : Nat)
    (ht : t ≤ s.last_active_at + 20) :
    ∀ n tick, s.last_active_at + 21 - tick ≤ n →
      waitFrom s (some t) tick = (WaitRes.ringErr (Holder.Error s t), t) := by
  intro n
  induction n with
  | zero =>
    intro tick h1
    have hlt : t < tick := by omega
    rw [waitFrom.eq_def]
    simp [hlt]
  | succ n ih =>
    intro tick h1
    by_cases hlt : t < tick
    · rw [waitFrom.eq_def]
      simp [hlt]
    · have h2 : ¬ 20 < tick - s.last_active_at := by omega
      rw [waitFrom.eq_def]
      simp [hlt, h2]
      exact ih (tick + 5) (by omega)

/-- C5: Wait polls every 5 seconds; with no event after the last
heartbeat and no termination, it returns the error "plugin is not
active" at the first poll observing more than 20 seconds of
inactivity, hence strictly after last_active_at + 20 and no later than
last_active_at + 25 (wait having started by the heartbeat); and when
the termination signal fires first (by last_active_at + 20), it
returns whatever the error ring reports at that moment, possibly no
error. -/
theorem wait_timing (s : Holder) (w t : Nat)
    (ho : s.health_chan_closed = false) (hw : w ≤ s.last_active_at) :
    ((Wait s w Option.none).1 = WaitRes.notActive ∧
      waitMessage (Wait s w Option.none).1 = some "plugin is not active" ∧
      s.last_active_at + 20 < (Wait s w Option.none).2 ∧
      (Wait s w Option.none).2 ≤ s.last_active_at + 25) ∧
    (t ≤ s.last_active_at + 20 →
      Wait s w (some t) = (WaitRes.ringErr (Holder.Error s t), t)) := by
  have hW : ∀ term, Wait s w term = waitFrom s term (w + 5) := by
    intro term
    unfold Wait
    rw [if_neg (by rw [ho]; exact Bool.false_ne_true)]
  obtain ⟨a1, a2, a3⟩ := waitFrom_none_spec s (s.last_active_at + 21) (w + 5)
    (by omega) (by omega)
  refine ⟨⟨?_, ?_, ?_, ?_⟩, ?_⟩
  · rw [hW]
    exact a1
  · rw [hW, a1]
    rfl
  · rw [hW]
    exact a2
  · rw [hW]
    exact a3
  · intro htle
    rw [hW]
    exact waitFrom_some_spec s t htle (s.last_active_at + 21) (w + 5) (by omega)

/-- Witness for the C5 theorem on a fresh holder. -/
theorem wait_timing_witness :
    ((Wait sampleHolder 0 Option.none).1 = WaitRes.notActive ∧
      waitMessage (Wait sampleHolder 0 Option.none).1 = some "plugin is not active" ∧
      sampleHolder.last_active_at + 20 < (Wait sampleHolder 0 Option.none).2 ∧
      (Wait sampleHolder 0 Option.none).2 ≤ sampleHolder.last_active_at + 25) ∧
    Wait sampleHolder 0 (some 3) = (WaitRes.ringErr (Holder.Error sampleHolder 3), 3) := by
  have h := wait_timing sampleHolder 0 3 rfl (by decide)
  exact ⟨h.1, h.2 (by decide)⟩
